import Mathlib

/-!
Shallow embedding of `src/imxrt1060-hal/src/can/id.rs`: CAN identifier
types (`StandardId`, `ExtendedId`, `Id`, `IdReg`), register encode/decode,
and the arbitration-priority comparison.  Machine integers (`u16`, `u32`)
are modelled as `Nat` with explicit `% 2^16` / `% 2^32` wherever the Rust
code can overflow or casts.
-/

namespace CanId

/-- Model of Rust's derived `Ord` on `bool`: `false < true`. -/
def boolCompare : Bool → Bool → Ordering
  | false, false => Ordering.eq
  | false, true => Ordering.lt
  | true, false => Ordering.gt
  | true, true => Ordering.eq

/-- Model of Rust's `Ord::cmp` on unsigned integers (here `Nat`). -/
def natCompare (a b : Nat) : Ordering :=
  if a < b then Ordering.lt else if a = b then Ordering.eq else Ordering.gt

/-- Model of Rust `struct StandardId(u16)` — standard 11-bit CAN identifier. -/
structure StandardId where
  raw : Nat
  deriving DecidableEq

/-- Model of `StandardId::as_raw`. -/
def StandardId.as_raw (s : StandardId) : Nat := s.raw

/-- Model of `StandardId::ZERO`. -/
def StandardId.ZERO : StandardId := ⟨0⟩

/-- Model of `StandardId::MAX`. -/
def StandardId.MAX : StandardId := ⟨0x7FF⟩

/-- Model of `StandardId::new`: `Some` iff `raw <= 0x7FF`. -/
def StandardId.new (raw : Nat) : Option StandardId :=
  if raw ≤ 0x7FF then some ⟨raw⟩ else none

/-- Model of `StandardId::new_unchecked`: constructs without a range check. -/
def StandardId.new_unchecked (raw : Nat) : StandardId := ⟨raw⟩

/-- Model of Rust `struct ExtendedId(u32)` — extended 29-bit CAN identifier. -/
structure ExtendedId where
  raw : Nat
  deriving DecidableEq

/-- Model of `ExtendedId::as_raw`. -/
def ExtendedId.as_raw (e : ExtendedId) : Nat := e.raw

/-- Model of `ExtendedId::ZERO`. -/
def ExtendedId.ZERO : ExtendedId := ⟨0⟩

/-- Model of `ExtendedId::MAX`. -/
def ExtendedId.MAX : ExtendedId := ⟨0x1FFFFFFF⟩

/-- Model of `ExtendedId::new`: `Some` iff `raw <= 0x1FFFFFFF`. -/
def ExtendedId.new (raw : Nat) : Option ExtendedId :=
  if raw ≤ 0x1FFFFFFF then some ⟨raw⟩ else none

/-- Model of `ExtendedId::new_unchecked`: constructs without a range check. -/
def ExtendedId.new_unchecked (raw : Nat) : ExtendedId := ⟨raw⟩

/-- Model of `ExtendedId::standard_id`: `StandardId((self.0 >> 18) as u16)`;
the `as u16` cast is the `% 2^16`. -/
def ExtendedId.standard_id (e : ExtendedId) : StandardId :=
  ⟨(e.raw >>> 18) % 2 ^ 16⟩

/-- Model of Rust `enum Id { Standard(StandardId), Extended(ExtendedId) }`. -/
inductive Id where
  | Standard : StandardId → Id
  | Extended : ExtendedId → Id
  deriving DecidableEq

/-- Model of `Id::as_raw`. -/
def Id.as_raw : Id → Nat
  | Id.Standard s => s.as_raw
  | Id.Extended e => e.as_raw

/-- Model of Rust `struct IdReg { code: u32, id: u32 }`. -/
structure IdReg where
  code : Nat
  id : Nat
  deriving DecidableEq

namespace IdReg

/-- Bit-field constant `SRR_SHIFT = 22`. -/
def SRR_SHIFT : Nat := 22

/-- Bit-field constant `SRR_MASK = 1 << 22`. -/
def SRR_MASK : Nat := 1 <<< SRR_SHIFT

/-- Bit-field constant `IDE_SHIFT = 21`. -/
def IDE_SHIFT : Nat := 21

/-- Bit-field constant `IDE_MASK = 1 << 21`. -/
def IDE_MASK : Nat := 1 <<< IDE_SHIFT

/-- Bit-field constant `RTR_SHIFT = 20`. -/
def RTR_SHIFT : Nat := 20

/-- Bit-field constant `RTR_MASK = 1 << 20`. -/
def RTR_MASK : Nat := 1 <<< RTR_SHIFT

/-- Bit-field constant `DLC_SHIFT = 16`. -/
def DLC_SHIFT : Nat := 16

/-- Bit-field constant `DLC_MASK = 0b111 << 16`. -/
def DLC_MASK : Nat := 7 <<< DLC_SHIFT

/-- Bit-field constant `TIMESTAMP_SHIFT = 0`. -/
def TIMESTAMP_SHIFT : Nat := 0

/-- Bit-field constant `TIMESTAMP_MASK = 0xFFFF << 0`. -/
def TIMESTAMP_MASK : Nat := 0xFFFF <<< TIMESTAMP_SHIFT

/-- Shift constant `STANDARD_SHIFT = 18`. -/
def STANDARD_SHIFT : Nat := 18

/-- Shift constant `EXTENDED_SHIFT = 0`. -/
def EXTENDED_SHIFT : Nat := 0

/-- Model of `IdReg::new(code, id)`. -/
def new (code id : Nat) : IdReg := ⟨code, id⟩

/-- Model of `IdReg::new_standard`: `code = 0`, `id = raw << 18` in `u32`
arithmetic (the raw `u16` value is widened to `u32` before the shift). -/
def new_standard (s : StandardId) : IdReg :=
  new 0x00 ((s.as_raw <<< STANDARD_SHIFT) % 2 ^ 32)

/-- Model of `IdReg::new_extended`: `code = IDE_MASK`,
`id = raw << STANDARD_SHIFT` in `u32` arithmetic (wrapping: shifted-out
bits are discarded, exactly as Rust `u32 <<`). -/
def new_extended (e : ExtendedId) : IdReg :=
  new IDE_MASK ((e.as_raw <<< STANDARD_SHIFT) % 2 ^ 32)

/-- Bitwise complement on `u32`, for Rust's `!RTR_MASK`. -/
def u32_not (x : Nat) : Nat := x ^^^ 0xFFFFFFFF

/-- Model of `IdReg::with_rtr`: sets or clears the RTR bit of `code`. -/
def with_rtr (r : IdReg) (rtr : Bool) : IdReg :=
  if rtr then new (r.code ||| RTR_MASK) r.id
  else new (r.code &&& u32_not RTR_MASK) r.id

/-- Model of `IdReg::is_extended`: `code & IDE_MASK != 0`. -/
def is_extended (r : IdReg) : Bool := r.code &&& IDE_MASK != 0

/-- Model of `IdReg::is_standard`. -/
def is_standard (r : IdReg) : Bool := !r.is_extended

/-- Model of `IdReg::rtr`: `code & RTR_MASK != 0`. -/
def rtr (r : IdReg) : Bool := r.code &&& RTR_MASK != 0

/-- Model of `IdReg::to_id`: extended ids are un-shifted by
`EXTENDED_SHIFT` (0), standard ids by `STANDARD_SHIFT` (18); the
`as u16` cast on the standard path is the `% 2^16`. -/
def to_id (r : IdReg) : Id :=
  if r.is_extended then
    Id.Extended (ExtendedId.new_unchecked (r.id >>> EXTENDED_SHIFT))
  else
    Id.Standard (StandardId.new_unchecked ((r.id >>> STANDARD_SHIFT) % 2 ^ 16))

/-- Model of `impl Ord for IdReg`, `fn cmp`. -/
def cmp (a b : IdReg) : Ordering :=
  let rtr := (boolCompare a.rtr b.rtr).swap
  match a.to_id, b.to_id with
  | Id.Standard x, Id.Standard y => ((natCompare x.as_raw y.as_raw).swap).then rtr
  | Id.Extended x, Id.Extended y => ((natCompare x.as_raw y.as_raw).swap).then rtr
  | Id.Standard x, Id.Extended y =>
      ((natCompare x.as_raw y.standard_id.as_raw).swap).then Ordering.gt
  | Id.Extended x, Id.Standard y =>
      ((natCompare x.standard_id.as_raw y.as_raw).swap).then Ordering.lt

end IdReg

/-- The set of `IdReg` values produced through validated encoding:
`new_standard` or `new_extended` on an in-range identifier, optionally
followed by any sequence of `with_rtr` calls. -/
inductive Reach : IdReg → Prop where
  | std (s : StandardId) : s.raw ≤ 0x7FF → Reach (IdReg.new_standard s)
  | ext (e : ExtendedId) : e.raw ≤ 0x1FFFFFFF → Reach (IdReg.new_extended e)
  | rtr (r : IdReg) (b : Bool) : Reach r → Reach (r.with_rtr b)

/-! ### Helper lemmas about the comparison primitives -/

theorem natCompare_self (a : Nat) : natCompare a a = Ordering.eq := by
  simp [natCompare]

theorem natCompare_eq_lt {a b : Nat} : natCompare a b = Ordering.lt ↔ a < b := by
  unfold natCompare
  split_ifs <;> simp_all <;> omega

theorem natCompare_eq_eq {a b : Nat} : natCompare a b = Ordering.eq ↔ a = b := by
  unfold natCompare
  split_ifs <;> simp_all <;> omega

theorem natCompare_eq_gt {a b : Nat} : natCompare a b = Ordering.gt ↔ b < a := by
  unfold natCompare
  split_ifs <;> simp_all <;> omega

theorem natCompare_mul_add {x y u v M : Nat} (hy : y < M) (hv : v < M) :
    natCompare (x * M + y) (u * M + v) = (natCompare x u).then (natCompare y v) := by
  rcases Nat.lt_trichotomy x u with h | h | h
  · have h1 : (x + 1) * M ≤ u * M := mul_le_mul_right' (Nat.succ_le_of_lt h) M
    rw [Nat.add_mul, Nat.one_mul] at h1
    have hlt : x * M + y < u * M + v := by linarith
    rw [natCompare_eq_lt.mpr hlt, natCompare_eq_lt.mpr h]
    rfl
  · subst h
    have hinner : natCompare (x * M + y) (x * M + v) = natCompare y v := by
      unfold natCompare
      split_ifs <;> simp_all <;> omega
    rw [hinner, natCompare_self]
    rfl
  · have h1 : (u + 1) * M ≤ x * M := mul_le_mul_right' (Nat.succ_le_of_lt h) M
    rw [Nat.add_mul, Nat.one_mul] at h1
    have hgt : u * M + v < x * M + y := by linarith
    rw [natCompare_eq_gt.mpr hgt, natCompare_eq_gt.mpr h]
    rfl

theorem natCompare_shiftRight_then (a b k : Nat) :
    (natCompare (a >>> k) (b >>> k)).then (natCompare a b) = natCompare a b := by
  rcases Nat.lt_trichotomy a b with h | h | h
  · have hle : a >>> k ≤ b >>> k := by
      simp only [Nat.shiftRight_eq_div_pow]
      exact Nat.div_le_div_right (Nat.le_of_lt h)
    rcases Nat.lt_or_ge (a >>> k) (b >>> k) with h2 | h2
    · rw [natCompare_eq_lt.mpr h2, natCompare_eq_lt.mpr h]
      rfl
    · rw [le_antisymm hle h2, natCompare_self]
      rfl
  · subst h
    rw [natCompare_self, natCompare_self]
    rfl
  · have hle : b >>> k ≤ a >>> k := by
      simp only [Nat.shiftRight_eq_div_pow]
      exact Nat.div_le_div_right (Nat.le_of_lt h)
    rcases Nat.lt_or_ge (b >>> k) (a >>> k) with h2 | h2
    · rw [natCompare_eq_gt.mpr h2, natCompare_eq_gt.mpr h]
      rfl
    · rw [le_antisymm hle h2, natCompare_self]
      rfl

theorem boolCompare_eq_natCompare (x y : Bool) :
    boolCompare x y = natCompare (if x then 1 else 0) (if y then 1 else 0) := by
  cases x <;> cases y <;> rfl

theorem boolCompare_self (x : Bool) : boolCompare x x = Ordering.eq := by
  cases x <;> rfl

theorem boolCompare_eq_eq {x y : Bool} : boolCompare x y = Ordering.eq ↔ x = y := by
  cases x <;> cases y <;> simp [boolCompare]

/-! ### Case analysis of `IdReg.cmp` by the IDE flags of its operands -/

/-- Value of the decoded standard identifier: `(id >> 18) as u16`; the same
expression is what the cross-type branches compare on the extended side via
`standard_id`. -/
def projStd (r : IdReg) : Nat := (r.id >>> 18) % 2 ^ 16

theorem cmp_std_std {a b : IdReg} (ha : a.is_extended = false)
    (hb : b.is_extended = false) :
    a.cmp b =
      ((natCompare (projStd a) (projStd b)).swap).then
        ((boolCompare a.rtr b.rtr).swap) := by
  simp [IdReg.cmp, IdReg.to_id, ha, hb, projStd, IdReg.STANDARD_SHIFT,
    StandardId.as_raw, StandardId.new_unchecked]

theorem cmp_ext_ext {a b : IdReg} (ha : a.is_extended = true)
    (hb : b.is_extended = true) :
    a.cmp b =
      ((natCompare a.id b.id).swap).then ((boolCompare a.rtr b.rtr).swap) := by
  simp [IdReg.cmp, IdReg.to_id, ha, hb, IdReg.EXTENDED_SHIFT,
    ExtendedId.as_raw, ExtendedId.new_unchecked, Nat.shiftRight_zero]

theorem cmp_std_ext {a b : IdReg} (ha : a.is_extended = false)
    (hb : b.is_extended = true) :
    a.cmp b =
      ((natCompare (projStd a) (projStd b)).swap).then Ordering.gt := by
  simp [IdReg.cmp, IdReg.to_id, ha, hb, projStd, IdReg.STANDARD_SHIFT,
    IdReg.EXTENDED_SHIFT, StandardId.as_raw, StandardId.new_unchecked,
    ExtendedId.new_unchecked, ExtendedId.standard_id, Nat.shiftRight_zero]

theorem cmp_ext_std {a b : IdReg} (ha : a.is_extended = true)
    (hb : b.is_extended = false) :
    a.cmp b =
      ((natCompare (projStd a) (projStd b)).swap).then Ordering.lt := by
  simp [IdReg.cmp, IdReg.to_id, ha, hb, projStd, IdReg.STANDARD_SHIFT,
    IdReg.EXTENDED_SHIFT, StandardId.as_raw, StandardId.new_unchecked,
    ExtendedId.new_unchecked, ExtendedId.standard_id, Nat.shiftRight_zero]

/-! ### A numeric key that linearises the comparison -/

theorem Ordering_then_eq (o : Ordering) : o.then Ordering.eq = o := by
  cases o <;> rfl

/-- IDE flag of a register, as a bit. -/
def eBit (r : IdReg) : Nat := if r.is_extended then 1 else 0

/-- Full decoded value for extended registers, `0` for standard ones. -/
def extVal (r : IdReg) : Nat := if r.is_extended then r.id else 0

/-- RTR flag of a register, as a bit. -/
def rtrBit (r : IdReg) : Nat := if r.rtr then 1 else 0

/-- Packs the data `cmp` looks at into one natural number so that `cmp`
is the reversed natural-number comparison of keys (for 32-bit `id` fields). -/
def key (r : IdReg) : Nat :=
  ((projStd r * 2 + eBit r) * 2 ^ 32 + extVal r) * 2 + rtrBit r

theorem projStd_eq_of_lt {r : IdReg} (h : r.id < 2 ^ 32) :
    projStd r = r.id >>> 18 := by
  unfold projStd
  apply Nat.mod_eq_of_lt
  rw [Nat.shiftRight_eq_div_pow]
  exact Nat.div_lt_of_lt_mul (by omega)

theorem cmp_eq_key {a b : IdReg} (ha : a.id < 2 ^ 32) (hb : b.id < 2 ^ 32) :
    a.cmp b = (natCompare (key a) (key b)).swap := by
  have hra : rtrBit a < 2 := by unfold rtrBit; split <;> omega
  have hrb : rtrBit b < 2 := by unfold rtrBit; split <;> omega
  cases hea : a.is_extended <;> cases heb : b.is_extended
  · rw [cmp_std_std hea heb]
    have hka : key a = ((projStd a * 2 + 0) * 2 ^ 32 + 0) * 2 + rtrBit a := by
      simp [key, eBit, extVal, hea]
    have hkb : key b = ((projStd b * 2 + 0) * 2 ^ 32 + 0) * 2 + rtrBit b := by
      simp [key, eBit, extVal, heb]
    rw [hka, hkb, natCompare_mul_add hra hrb,
      natCompare_mul_add (M := 2 ^ 32) (by norm_num) (by norm_num),
      natCompare_mul_add (M := 2) (by norm_num) (by norm_num)]
    simp only [natCompare_self, Ordering_then_eq, Ordering.swap_then,
      boolCompare_eq_natCompare]
    simp [rtrBit]
  · rw [cmp_std_ext hea heb]
    have hka : key a = projStd a * 2 ^ 34 + rtrBit a := by
      simp [key, eBit, extVal, hea] <;> ring
    have hkb : key b = projStd b * 2 ^ 34 + (2 ^ 33 + 2 * b.id + rtrBit b) := by
      simp [key, eBit, extVal, heb] <;> ring
    have hmain : natCompare (key a) (key b)
        = (natCompare (projStd a) (projStd b)).then
            (natCompare (rtrBit a) (2 ^ 33 + 2 * b.id + rtrBit b)) := by
      rw [hka, hkb]
      exact natCompare_mul_add (by omega) (by omega)
    have hlt : natCompare (rtrBit a) (2 ^ 33 + 2 * b.id + rtrBit b)
        = Ordering.lt := natCompare_eq_lt.mpr (by omega)
    rw [hmain, hlt, Ordering.swap_then]
    rfl
  · rw [cmp_ext_std hea heb]
    have hka : key a = projStd a * 2 ^ 34 + (2 ^ 33 + 2 * a.id + rtrBit a) := by
      simp [key, eBit, extVal, hea] <;> ring
    have hkb : key b = projStd b * 2 ^ 34 + rtrBit b := by
      simp [key, eBit, extVal, heb] <;> ring
    have hmain : natCompare (key a) (key b)
        = (natCompare (projStd a) (projStd b)).then
            (natCompare (2 ^ 33 + 2 * a.id + rtrBit a) (rtrBit b)) := by
      rw [hka, hkb]
      exact natCompare_mul_add (by omega) (by omega)
    have hgt : natCompare (2 ^ 33 + 2 * a.id + rtrBit a) (rtrBit b)
        = Ordering.gt := natCompare_eq_gt.mpr (by omega)
    rw [hmain, hgt, Ordering.swap_then]
    rfl
  · rw [cmp_ext_ext hea heb]
    have hka : key a = ((projStd a * 2 + 1) * 2 ^ 32 + a.id) * 2 + rtrBit a := by
      simp [key, eBit, extVal, hea]
    have hkb : key b = ((projStd b * 2 + 1) * 2 ^ 32 + b.id) * 2 + rtrBit b := by
      simp [key, eBit, extVal, heb]
    rw [hka, hkb, natCompare_mul_add hra hrb,
      natCompare_mul_add (M := 2 ^ 32) ha hb,
      natCompare_mul_add (M := 2) (by norm_num) (by norm_num),
      natCompare_self, Ordering_then_eq, projStd_eq_of_lt ha,
      projStd_eq_of_lt hb, natCompare_shiftRight_then]
    simp only [Ordering.swap_then, boolCompare_eq_natCompare]
    simp [rtrBit]

theorem cmp_self (a : IdReg) : a.cmp a = Ordering.eq := by
  cases hea : a.is_extended
  · rw [cmp_std_std hea hea, natCompare_self, boolCompare_self]
    rfl
  · rw [cmp_ext_ext hea hea, natCompare_self, boolCompare_self]
    rfl

theorem cmp_trans {a b c : IdReg} (ha : a.id < 2 ^ 32) (hb : b.id < 2 ^ 32)
    (hc : c.id < 2 ^ 32) (h1 : a.cmp b ≠ Ordering.gt)
    (h2 : b.cmp c ≠ Ordering.gt) : a.cmp c ≠ Ordering.gt := by
  rw [cmp_eq_key ha hb] at h1
  rw [cmp_eq_key hb hc] at h2
  rw [cmp_eq_key ha hc]
  have k1 : key b ≤ key a := by
    by_contra hk
    exact h1 (by rw [natCompare_eq_lt.mpr (by omega)]; rfl)
  have k2 : key c ≤ key b := by
    by_contra hk
    exact h2 (by rw [natCompare_eq_lt.mpr (by omega)]; rfl)
  intro hac
  have : natCompare (key a) (key c) = Ordering.lt := by
    cases hx : natCompare (key a) (key c) <;> simp [hx, Ordering.swap] at hac ⊢
  have := natCompare_eq_lt.mp this
  omega

/-! ### Canonical form of validated encodings -/

theorem reach_form {r : IdReg} (h : Reach r) :
    (∃ v, v ≤ 0x7FF ∧ r.id = (v <<< 18) % 2 ^ 32 ∧
      (r.code = 0 ∨ r.code = IdReg.RTR_MASK))
  ∨ (∃ v, v ≤ 0x1FFFFFFF ∧ r.id = (v <<< 18) % 2 ^ 32 ∧
      (r.code = IdReg.IDE_MASK ∨ r.code = IdReg.IDE_MASK ||| IdReg.RTR_MASK)) := by
  induction h with
  | std s hs => exact Or.inl ⟨s.raw, hs, rfl, Or.inl rfl⟩
  | ext e he => exact Or.inr ⟨e.raw, he, rfl, Or.inl rfl⟩
  | rtr r b _ ih =>
    have hid2 : (r.with_rtr b).id = r.id := by cases b <;> rfl
    have hcode : (r.with_rtr b).code
        = (if b then r.code ||| IdReg.RTR_MASK
           else r.code &&& IdReg.u32_not IdReg.RTR_MASK) := by
      cases b <;> rfl
    rcases ih with ⟨v, hv, hid, hc⟩ | ⟨v, hv, hid, hc⟩
    · refine Or.inl ⟨v, hv, by rw [hid2, hid], ?_⟩
      rw [hcode]
      rcases hc with hc | hc <;> rw [hc] <;> cases b <;> decide
    · refine Or.inr ⟨v, hv, by rw [hid2, hid], ?_⟩
      rw [hcode]
      rcases hc with hc | hc <;> rw [hc] <;> cases b <;> decide

theorem reach_id_lt {r : IdReg} (h : Reach r) : r.id < 2 ^ 32 := by
  rcases reach_form h with ⟨v, _, hid, _⟩ | ⟨v, _, hid, _⟩ <;>
    rw [hid] <;> exact Nat.mod_lt _ (by norm_num)

theorem flags_of_code {r : IdReg} :
    (r.code = 0 → r.is_extended = false ∧ r.rtr = false)
  ∧ (r.code = IdReg.RTR_MASK → r.is_extended = false ∧ r.rtr = true)
  ∧ (r.code = IdReg.IDE_MASK → r.is_extended = true ∧ r.rtr = false)
  ∧ (r.code = IdReg.IDE_MASK ||| IdReg.RTR_MASK →
      r.is_extended = true ∧ r.rtr = true) := by
  refine ⟨?_, ?_, ?_, ?_⟩ <;> intro hc <;>
    simp only [IdReg.is_extended, IdReg.rtr, hc] <;> decide

theorem IdReg_eq_of {a b : IdReg} (hc : a.code = b.code) (hi : a.id = b.id) :
    a = b := by
  cases a
  cases b
  simp_all

theorem proj_of_encode_std {v : Nat} (hv : v ≤ 0x7FF) :
    (((v <<< 18) % 2 ^ 32) >>> 18) % 2 ^ 16 = v := by
  have h1 : v <<< 18 = v * 2 ^ 18 := Nat.shiftLeft_eq v 18
  have h2 : v * 2 ^ 18 % 2 ^ 32 = v * 2 ^ 18 := Nat.mod_eq_of_lt (by omega)
  have h3 : v * 2 ^ 18 / 2 ^ 18 = v := Nat.mul_div_cancel _ (by norm_num)
  rw [h1, h2, Nat.shiftRight_eq_div_pow, h3]
  exact Nat.mod_eq_of_lt (by omega)

theorem Ordering_swap_eq_eq {o : Ordering} :
    o.swap = Ordering.eq ↔ o = Ordering.eq := by
  cases o <;> decide

theorem cmp_eq_iff_eq {a b : IdReg} (ha : Reach a) (hb : Reach b) :
    a.cmp b = Ordering.eq ↔ a = b := by
  constructor
  · intro h
    rcases reach_form ha with ⟨va, hva, hida, hca⟩ | ⟨va, hva, hida, hca⟩ <;>
      rcases reach_form hb with ⟨vb, hvb, hidb, hcb⟩ | ⟨vb, hvb, hidb, hcb⟩
    · have hea : a.is_extended = false := by
        rcases hca with hc | hc
        · exact (flags_of_code.1 hc).1
        · exact (flags_of_code.2.1 hc).1
      have heb : b.is_extended = false := by
        rcases hcb with hc | hc
        · exact (flags_of_code.1 hc).1
        · exact (flags_of_code.2.1 hc).1
      rw [cmp_std_std hea heb, Ordering.then_eq_eq] at h
      have hpp : projStd a = projStd b :=
        natCompare_eq_eq.mp (Ordering_swap_eq_eq.mp h.1)
      have hpa : projStd a = va := by
        rw [projStd, hida]
        exact proj_of_encode_std hva
      have hpb : projStd b = vb := by
        rw [projStd, hidb]
        exact proj_of_encode_std hvb
      have hid : a.id = b.id := by
        rw [hida, hidb]
        rw [← hpa, ← hpb, hpp]
      have hr : a.rtr = b.rtr := boolCompare_eq_eq.mp (Ordering_swap_eq_eq.mp h.2)
      have hcode : a.code = b.code := by
        rcases hca with hc1 | hc1 <;> rcases hcb with hc2 | hc2
        · rw [hc1, hc2]
        · rw [(flags_of_code.1 hc1).2, (flags_of_code.2.1 hc2).2] at hr
          cases hr
        · rw [(flags_of_code.2.1 hc1).2, (flags_of_code.1 hc2).2] at hr
          cases hr
        · rw [hc1, hc2]
      exact IdReg_eq_of hcode hid
    · have hea : a.is_extended = false := by
        rcases hca with hc | hc
        · exact (flags_of_code.1 hc).1
        · exact (flags_of_code.2.1 hc).1
      have heb : b.is_extended = true := by
        rcases hcb with hc | hc
        · exact (flags_of_code.2.2.1 hc).1
        · exact (flags_of_code.2.2.2 hc).1
      rw [cmp_std_ext hea heb, Ordering.then_eq_eq] at h
      exact absurd h.2 (by decide)
    · have hea : a.is_extended = true := by
        rcases hca with hc | hc
        · exact (flags_of_code.2.2.1 hc).1
        · exact (flags_of_code.2.2.2 hc).1
      have heb : b.is_extended = false := by
        rcases hcb with hc | hc
        · exact (flags_of_code.1 hc).1
        · exact (flags_of_code.2.1 hc).1
      rw [cmp_ext_std hea heb, Ordering.then_eq_eq] at h
      exact absurd h.2 (by decide)
    · have hea : a.is_extended = true := by
        rcases hca with hc | hc
        · exact (flags_of_code.2.2.1 hc).1
        · exact (flags_of_code.2.2.2 hc).1
      have heb : b.is_extended = true := by
        rcases hcb with hc | hc
        · exact (flags_of_code.2.2.1 hc).1
        · exact (flags_of_code.2.2.2 hc).1
      rw [cmp_ext_ext hea heb, Ordering.then_eq_eq] at h
      have hid : a.id = b.id := natCompare_eq_eq.mp (Ordering_swap_eq_eq.mp h.1)
      have hr : a.rtr = b.rtr := boolCompare_eq_eq.mp (Ordering_swap_eq_eq.mp h.2)
      have hcode : a.code = b.code := by
        rcases hca with hc1 | hc1 <;> rcases hcb with hc2 | hc2
        · rw [hc1, hc2]
        · rw [(flags_of_code.2.2.1 hc1).2, (flags_of_code.2.2.2 hc2).2] at hr
          cases hr
        · rw [(flags_of_code.2.2.2 hc1).2, (flags_of_code.2.2.1 hc2).2] at hr
          cases hr
        · rw [hc1, hc2]
      exact IdReg_eq_of hcode hid
  · rintro rfl
    exact cmp_self a

/-! ### Facts about the encoders that the claims use -/

theorem with_rtr_id (r : IdReg) (b : Bool) : (r.with_rtr b).id = r.id := by
  cases b <;> rfl

theorem new_standard_is_extended (s : StandardId) :
    (IdReg.new_standard s).is_extended = false := by
  show (0x00 &&& IdReg.IDE_MASK != 0) = false
  decide

theorem new_extended_is_extended (e : ExtendedId) :
    (IdReg.new_extended e).is_extended = true := by
  show (IdReg.IDE_MASK &&& IdReg.IDE_MASK != 0) = true
  decide

theorem new_standard_rtr (s : StandardId) :
    (IdReg.new_standard s).rtr = false := by
  show (0x00 &&& IdReg.RTR_MASK != 0) = false
  decide

theorem with_rtr_std_is_extended (s : StandardId) (b : Bool) :
    ((IdReg.new_standard s).with_rtr b).is_extended = false := by
  cases b
  · show ((0x00 &&& IdReg.u32_not IdReg.RTR_MASK) &&& IdReg.IDE_MASK != 0) = false
    decide
  · show ((0x00 ||| IdReg.RTR_MASK) &&& IdReg.IDE_MASK != 0) = false
    decide

theorem with_rtr_ext_is_extended (e : ExtendedId) (b : Bool) :
    ((IdReg.new_extended e).with_rtr b).is_extended = true := by
  cases b
  · show ((IdReg.IDE_MASK &&& IdReg.u32_not IdReg.RTR_MASK) &&& IdReg.IDE_MASK != 0)
      = true
    decide
  · show ((IdReg.IDE_MASK ||| IdReg.RTR_MASK) &&& IdReg.IDE_MASK != 0) = true
    decide

theorem with_rtr_std_rtr (s : StandardId) (b : Bool) :
    ((IdReg.new_standard s).with_rtr b).rtr = b := by
  cases b
  · show ((0x00 &&& IdReg.u32_not IdReg.RTR_MASK) &&& IdReg.RTR_MASK != 0) = false
    decide
  · show ((0x00 ||| IdReg.RTR_MASK) &&& IdReg.RTR_MASK != 0) = true
    decide

theorem with_rtr_ext_rtr (e : ExtendedId) (b : Bool) :
    ((IdReg.new_extended e).with_rtr b).rtr = b := by
  cases b
  · show ((IdReg.IDE_MASK &&& IdReg.u32_not IdReg.RTR_MASK) &&& IdReg.RTR_MASK != 0)
      = false
    decide
  · show ((IdReg.IDE_MASK ||| IdReg.RTR_MASK) &&& IdReg.RTR_MASK != 0) = true
    decide

theorem projStd_encode {v : Nat} (hv : v ≤ 0x7FF) (r : IdReg)
    (hid : r.id = (v <<< 18) % 2 ^ 32) : projStd r = v := by
  unfold projStd
  rw [hid]
  exact proj_of_encode_std hv

theorem with_rtr_false_new_standard (s : StandardId) :
    (IdReg.new_standard s).with_rtr false = IdReg.new_standard s := by
  apply IdReg_eq_of
  · show 0x00 &&& IdReg.u32_not IdReg.RTR_MASK = 0x00
    decide
  · exact with_rtr_id _ _

/-! ### The claims -/

/-- C1: the claimed round-trip for extended identifiers,
`new_extended(e).to_id() == Id::Extended(e)`, fails on the code: at the
valid extended id `1`, decoding returns `Id.Extended 0x40000`, because
`new_extended` shifts the raw value left by `STANDARD_SHIFT` (18) while
`to_id` un-shifts extended ids by `EXTENDED_SHIFT` (0). -/
theorem C1_extended_roundtrip_fails :
    (1 : Nat) ≤ 0x1FFFFFFF ∧
    (IdReg.new_extended ⟨1⟩).to_id = Id.Extended ⟨0x40000⟩ ∧
    (IdReg.new_extended ⟨1⟩).to_id ≠ Id.Extended ⟨1⟩ := by
  decide

/-- C2: decode safety fails on the code: for the valid extended id `0x800`,
`to_id` passes the unchecked `ExtendedId` constructor the raw value
`0x20000000`, which exceeds the documented bound `0x1FFFFFFF`. -/
theorem C2_decode_safety_fails :
    (0x800 : Nat) ≤ 0x1FFFFFFF ∧
    (IdReg.new_extended ⟨0x800⟩).to_id = Id.Extended ⟨0x20000000⟩ ∧
    ¬ (0x20000000 : Nat) ≤ 0x1FFFFFFF := by
  decide

/-- C3: the cross-type tie-break fails on the code: the valid extended id
`0x1FFC0000` has base id `0x7FF`, yet `new_standard(0x7FF)` compares `lt`
(not `gt`) against `new_extended(0x1FFC0000)`, because the comparison
decodes the extended operand through the mismatched shift. -/
theorem C3_cross_type_tiebreak_fails :
    ExtendedId.standard_id ⟨0x1FFC0000⟩ = (⟨0x7FF⟩ : StandardId) ∧
    (0x1FFC0000 : Nat) ≤ 0x1FFFFFFF ∧
    (IdReg.new_standard ⟨0x7FF⟩).cmp (IdReg.new_extended ⟨0x1FFC0000⟩)
      = Ordering.lt := by
  decide

/-- C4: priority inversion for extended identifiers fails on the code: the
valid extended ids `1 < 0x4000` have equal RTR flags, yet
`new_extended(1)` compares `lt` (not `gt`) against `new_extended(0x4000)`,
because `0x4000 <<< 18` wraps to `0` in the 32-bit `id` field. -/
theorem C4_extended_inversion_fails :
    (1 : Nat) < 0x4000 ∧ (0x4000 : Nat) ≤ 0x1FFFFFFF ∧
    (IdReg.new_extended ⟨1⟩).rtr = (IdReg.new_extended ⟨0x4000⟩).rtr ∧
    (IdReg.new_extended ⟨1⟩).cmp (IdReg.new_extended ⟨0x4000⟩)
      = Ordering.lt := by
  decide

/-- C5: total order laws — for all `IdReg` values produced through validated
encoding (`Reach`), `cmp` is reflexive, exactly one of `lt` (with `a ≠ b`),
structural equality (with `cmp = eq`), or `gt` (with `a ≠ b`) holds, and
`cmp` is transitive in the `≤` sense; `cmp` is a total function into the
three `Ordering` values, so the comparison never fails. -/
theorem C5_total_order (a b c : IdReg) (ha : Reach a) (hb : Reach b)
    (hc : Reach c) :
    a.cmp a = Ordering.eq ∧
    ((a.cmp b = Ordering.lt ∧ a ≠ b ∧ a.cmp b ≠ Ordering.gt) ∨
     (a = b ∧ a.cmp b ≠ Ordering.lt ∧ a.cmp b ≠ Ordering.gt) ∨
     (a.cmp b = Ordering.gt ∧ a ≠ b ∧ a.cmp b ≠ Ordering.lt)) ∧
    (a.cmp b ≠ Ordering.gt → b.cmp c ≠ Ordering.gt → a.cmp c ≠ Ordering.gt) := by
  refine ⟨cmp_self a, ?_,
    cmp_trans (reach_id_lt ha) (reach_id_lt hb) (reach_id_lt hc)⟩
  cases hx : a.cmp b
  · refine Or.inl ⟨rfl, ?_, by decide⟩
    intro he
    rw [he, cmp_self] at hx
    cases hx
  · exact Or.inr (Or.inl ⟨(cmp_eq_iff_eq ha hb).mp hx, by decide, by decide⟩)
  · refine Or.inr (Or.inr ⟨rfl, ?_, by decide⟩)
    intro he
    rw [he, cmp_self] at hx
    cases hx

/-- Witness for C5 at the validated encodings of standard ids 5 and 7 and
extended id 9. -/
theorem C5_total_order_witness :
    (IdReg.new_standard ⟨5⟩).cmp (IdReg.new_standard ⟨5⟩) = Ordering.eq ∧
    (((IdReg.new_standard ⟨5⟩).cmp (IdReg.new_standard ⟨7⟩) = Ordering.lt ∧
        IdReg.new_standard ⟨5⟩ ≠ IdReg.new_standard ⟨7⟩ ∧
        (IdReg.new_standard ⟨5⟩).cmp (IdReg.new_standard ⟨7⟩) ≠ Ordering.gt) ∨
     (IdReg.new_standard ⟨5⟩ = IdReg.new_standard ⟨7⟩ ∧
        (IdReg.new_standard ⟨5⟩).cmp (IdReg.new_standard ⟨7⟩) ≠ Ordering.lt ∧
        (IdReg.new_standard ⟨5⟩).cmp (IdReg.new_standard ⟨7⟩) ≠ Ordering.gt) ∨
     ((IdReg.new_standard ⟨5⟩).cmp (IdReg.new_standard ⟨7⟩) = Ordering.gt ∧
        IdReg.new_standard ⟨5⟩ ≠ IdReg.new_standard ⟨7⟩ ∧
        (IdReg.new_standard ⟨5⟩).cmp (IdReg.new_standard ⟨7⟩) ≠ Ordering.lt)) ∧
    ((IdReg.new_standard ⟨5⟩).cmp (IdReg.new_standard ⟨7⟩) ≠ Ordering.gt →
      (IdReg.new_standard ⟨7⟩).cmp (IdReg.new_extended ⟨9⟩) ≠ Ordering.gt →
      (IdReg.new_standard ⟨5⟩).cmp (IdReg.new_extended ⟨9⟩) ≠ Ordering.gt) :=
  C5_total_order _ _ _ (Reach.std ⟨5⟩ (by decide)) (Reach.std ⟨7⟩ (by decide))
    (Reach.ext ⟨9⟩ (by decide))

/-- C6: round-trip for standard identifiers — for every raw value
`s ≤ 0x7FF`, `IdReg.new_standard ⟨s⟩` decodes back to `Id.Standard ⟨s⟩`. -/
theorem C6_standard_roundtrip (s : Nat) (hs : s ≤ 0x7FF) :
    (IdReg.new_standard ⟨s⟩).to_id = Id.Standard ⟨s⟩ := by
  have hp : ((IdReg.new_standard ⟨s⟩).id >>> IdReg.STANDARD_SHIFT) % 65536
      = s := by
    show (((s <<< 18) % 2 ^ 32) >>> 18) % 2 ^ 16 = s
    exact proj_of_encode_std hs
  simp [IdReg.to_id, new_standard_is_extended, StandardId.new_unchecked, hp]

/-- Witness for C6 at `s = 5`. -/
theorem C6_standard_roundtrip_witness :
    (IdReg.new_standard ⟨5⟩).to_id = Id.Standard ⟨5⟩ :=
  C6_standard_roundtrip 5 (by decide)

/-- C7: priority inversion for standard identifiers — for raw values
`x < y` (both `≤ 0x7FF`) and equal RTR flags, `new_standard(x)` compares
`gt` against `new_standard(y)`; in particular id 5 outranks id 10. -/
theorem C7_standard_priority_inversion (x y : Nat) (rt : Bool)
    (hx : x ≤ 0x7FF) (hy : y ≤ 0x7FF) (hxy : x < y) :
    ((IdReg.new_standard ⟨x⟩).with_rtr rt).cmp
        ((IdReg.new_standard ⟨y⟩).with_rtr rt) = Ordering.gt ∧
    (IdReg.new_standard ⟨x⟩).cmp (IdReg.new_standard ⟨y⟩) = Ordering.gt ∧
    (IdReg.new_standard ⟨5⟩).cmp (IdReg.new_standard ⟨10⟩) = Ordering.gt := by
  have main : ∀ (u v : Nat) (ru rv : Bool), u ≤ 0x7FF → v ≤ 0x7FF → u < v →
      ((IdReg.new_standard ⟨u⟩).with_rtr ru).cmp
        ((IdReg.new_standard ⟨v⟩).with_rtr rv) = Ordering.gt := by
    intro u v ru rv hu hv huv
    rw [cmp_std_std (with_rtr_std_is_extended _ _) (with_rtr_std_is_extended _ _)]
    have hpu : projStd ((IdReg.new_standard ⟨u⟩).with_rtr ru) = u :=
      projStd_encode hu _ (with_rtr_id _ _)
    have hpv : projStd ((IdReg.new_standard ⟨v⟩).with_rtr rv) = v :=
      projStd_encode hv _ (with_rtr_id _ _)
    rw [hpu, hpv, natCompare_eq_lt.mpr huv]
    rfl
  refine ⟨main x y rt rt hx hy hxy, ?_, by decide⟩
  rw [← with_rtr_false_new_standard ⟨x⟩, ← with_rtr_false_new_standard ⟨y⟩]
  exact main x y false false hx hy hxy

/-- Witness for C7 at `x = 5`, `y = 10`, RTR flag set. -/
theorem C7_standard_priority_inversion_witness :
    ((IdReg.new_standard ⟨5⟩).with_rtr true).cmp
        ((IdReg.new_standard ⟨10⟩).with_rtr true) = Ordering.gt ∧
    (IdReg.new_standard ⟨5⟩).cmp (IdReg.new_standard ⟨10⟩) = Ordering.gt ∧
    (IdReg.new_standard ⟨5⟩).cmp (IdReg.new_standard ⟨10⟩) = Ordering.gt :=
  C7_standard_priority_inversion 5 10 true (by decide) (by decide) (by decide)

/-- C8: RTR tie-break — at equal raw id the data-frame encoding
(`with_rtr false`) compares `gt` against the remote-frame encoding
(`with_rtr true`), both for standard and for extended identifiers. -/
theorem C8_rtr_tiebreak (s e : Nat) (hs : s ≤ 0x7FF)
    (he : e ≤ 0x1FFFFFFF) :
    ((IdReg.new_standard ⟨s⟩).with_rtr false).cmp
        ((IdReg.new_standard ⟨s⟩).with_rtr true) = Ordering.gt ∧
    ((IdReg.new_extended ⟨e⟩).with_rtr false).cmp
        ((IdReg.new_extended ⟨e⟩).with_rtr true) = Ordering.gt := by
  constructor
  · rw [cmp_std_std (with_rtr_std_is_extended _ _) (with_rtr_std_is_extended _ _)]
    have hp : projStd ((IdReg.new_standard ⟨s⟩).with_rtr false)
        = projStd ((IdReg.new_standard ⟨s⟩).with_rtr true) := by
      unfold projStd
      rw [with_rtr_id, with_rtr_id]
    rw [hp, natCompare_self, with_rtr_std_rtr, with_rtr_std_rtr]
    rfl
  · rw [cmp_ext_ext (with_rtr_ext_is_extended _ _) (with_rtr_ext_is_extended _ _)]
    have hid : ((IdReg.new_extended ⟨e⟩).with_rtr false).id
        = ((IdReg.new_extended ⟨e⟩).with_rtr true).id := by
      rw [with_rtr_id, with_rtr_id]
    rw [hid, natCompare_self, with_rtr_ext_rtr, with_rtr_ext_rtr]
    rfl

/-- Witness for C8 at `s = 5`, `e = 9`. -/
theorem C8_rtr_tiebreak_witness :
    ((IdReg.new_standard ⟨5⟩).with_rtr false).cmp
        ((IdReg.new_standard ⟨5⟩).with_rtr true) = Ordering.gt ∧
    ((IdReg.new_extended ⟨9⟩).with_rtr false).cmp
        ((IdReg.new_extended ⟨9⟩).with_rtr true) = Ordering.gt :=
  C8_rtr_tiebreak 5 9 (by decide) (by decide)

/-- C9: range validation at construction — `StandardId.new raw` returns a
value (storing `raw` unchanged) exactly when `raw ≤ 0x7FF` and `none`
otherwise; `ExtendedId.new raw` likewise with bound `0x1FFFFFFF`; both are
total functions (no panic). -/
theorem C9_range_validation (r1 r2 : Nat) :
    ((∃ s, StandardId.new r1 = some s ∧ s.as_raw = r1) ↔ r1 ≤ 0x7FF) ∧
    (StandardId.new r1 = none ↔ 0x7FF < r1) ∧
    ((∃ e, ExtendedId.new r2 = some e ∧ e.as_raw = r2) ↔ r2 ≤ 0x1FFFFFFF) ∧
    (ExtendedId.new r2 = none ↔ 0x1FFFFFFF < r2) := by
  unfold StandardId.new ExtendedId.new
  refine ⟨?_, ?_, ?_, ?_⟩ <;> split_ifs with h <;>
    simp_all [StandardId.as_raw, ExtendedId.as_raw] <;> omega

/-- C10: the comparison reads only the `id` field and the IDE and RTR bits
of `code` — replacing the operands by any registers that agree on those
three observables leaves `cmp` unchanged; consequently any two registers
agreeing on them (for example differing only in SRR, DLC, or timestamp
bits) compare `eq`, while differing `code` fields still make them unequal
as values. -/
theorem C10_cmp_depends_only_on_id_ide_rtr (a b a2 b2 : IdReg)
    (h1 : a2.id = a.id) (h2 : a2.is_extended = a.is_extended)
    (h3 : a2.rtr = a.rtr) (h4 : b2.id = b.id)
    (h5 : b2.is_extended = b.is_extended) (h6 : b2.rtr = b.rtr) :
    a2.cmp b2 = a.cmp b ∧
    (a.id = b.id → a.is_extended = b.is_extended → a.rtr = b.rtr →
      a.cmp b = Ordering.eq) ∧
    (a.code ≠ b.code → a ≠ b) := by
  have hpa : projStd a2 = projStd a := by
    unfold projStd
    rw [h1]
  have hpb : projStd b2 = projStd b := by
    unfold projStd
    rw [h4]
  refine ⟨?_, ?_, fun hne he => hne (congrArg IdReg.code he)⟩
  · cases hea : a.is_extended <;> cases heb : b.is_extended
    · rw [cmp_std_std hea heb, cmp_std_std (h2.trans hea) (h5.trans heb),
        hpa, hpb, h3, h6]
    · rw [cmp_std_ext hea heb, cmp_std_ext (h2.trans hea) (h5.trans heb),
        hpa, hpb]
    · rw [cmp_ext_std hea heb, cmp_ext_std (h2.trans hea) (h5.trans heb),
        hpa, hpb]
    · rw [cmp_ext_ext hea heb, cmp_ext_ext (h2.trans hea) (h5.trans heb),
        h1, h4, h3, h6]
  · intro g1 g2 g3
    cases hea : a.is_extended
    · rw [cmp_std_std hea (g2.symm.trans hea)]
      have hp : projStd a = projStd b := by
        unfold projStd
        rw [g1]
      rw [hp, natCompare_self, g3, boolCompare_self]
      rfl
    · rw [cmp_ext_ext hea (g2.symm.trans hea), g1, natCompare_self, g3,
        boolCompare_self]
      rfl

/-- Witness for C10: registers whose `code` fields differ only in the SRR
respectively DLC bits compare like the plain ones. -/
theorem C10_cmp_depends_only_on_id_ide_rtr_witness :
    (IdReg.new IdReg.SRR_MASK 5).cmp (IdReg.new IdReg.DLC_MASK 5)
      = (IdReg.new 0 5).cmp (IdReg.new 0 5) ∧
    ((IdReg.new 0 5).id = (IdReg.new 0 5).id →
      (IdReg.new 0 5).is_extended = (IdReg.new 0 5).is_extended →
      (IdReg.new 0 5).rtr = (IdReg.new 0 5).rtr →
      (IdReg.new 0 5).cmp (IdReg.new 0 5) = Ordering.eq) ∧
    ((IdReg.new 0 5).code ≠ (IdReg.new 0 5).code →
      IdReg.new 0 5 ≠ IdReg.new 0 5) :=
  C10_cmp_depends_only_on_id_ide_rtr (IdReg.new 0 5) (IdReg.new 0 5)
    (IdReg.new IdReg.SRR_MASK 5) (IdReg.new IdReg.DLC_MASK 5)
    (by decide) (by decide) (by decide) (by decide) (by decide) (by decide)

end CanId
